import Mathlib

/-!
A shallow embedding of `src/ecs_deployer.py`.

The script is single-threaded and purely sequential, so it is modelled as a
pure function from the parsed command-line arguments and a `World` (the
responses of the remote AWS APIs, the environment, and the local config file)
to a process outcome together with the ordered trace of remote calls made.
Remote calls issued inside the rollout polling loop (`list_tasks` and
`describe_tasks`, which happen only after every mutation) are modelled by the
`pollTrace` field of the `World` rather than by trace entries.
-/

set_option autoImplicit false

namespace EcsDeployer

/-- Python truthiness of an optional string: `None` and `""` are falsy,
every other string is truthy (models `if args.x:` checks in the script). -/
def pyTruthy : Option String → Bool
  | none => false
  | some s => s != ""

/-- One container definition of a task definition.  `name`, `image` and
`portMappings` (the list of `containerPort` values of the `portMappings`
blocks) are the fields the script reads; `rest` stands opaquely for every
other field, so "byte-for-byte preservation" of a container is equality of
the whole structure. -/
structure ContainerDef where
  name : String
  image : String
  portMappings : List Nat
  rest : String
deriving DecidableEq, Repr

/-- The parts of a fetched task definition that the script uses:
`family`, `volumes` (opaque) and the container definitions. -/
structure TaskDefinition where
  family : String
  volumes : List String
  containerDefinitions : List ContainerDef
deriving DecidableEq, Repr

/-- Parsed command-line arguments (`parse_arguments`).  `taskName` models the
`-d` option (argparse `nargs=1`: present iff the option was given), `image`
models the accumulated `-i NAME IMAGE` pairs (`[]` for Python `None`). -/
structure Args where
  region : Option String
  profile : Option String
  cluster : String
  service : Option String
  taskName : Option String
  copy : Option String
  update : Bool
  image : List (String × String)
  timeout : Nat
  backoff : Nat
  code_deploy : Bool
  app_name : Option String
  group_name : Option String
  onlyIfModified : Bool
deriving DecidableEq, Repr

/-- Outcome of one `ecs.describe_tasks` call in the polling loop.
`ok tasksField` is a normal response (`none` when the response has no
`tasks` key, otherwise the list of `taskDefinitionArn` values of the
returned tasks); `emptyErr` is the `ClientError` whose message is
`Tasks cannot be empty.`; `otherErr` is any other `ClientError`. -/
inductive DescribeTasksOutcome
  | ok (tasksField : Option (List String))
  | emptyErr
  | otherErr
deriving DecidableEq, Repr

/-- One iteration of the polling loop of `wait_for_task`, as observed by the
script: whether the `list_tasks` response was truthy and had a `taskArns`
key, the outcome of the subsequent `describe_tasks` call, and the value of
`time.time() - time_start` at the timeout check of that iteration. -/
structure PollObs where
  hasTaskArns : Bool
  describe : DescribeTasksOutcome
  elapsed : Nat
deriving DecidableEq, Repr

/-- Result of `wait_for_task`: `success` is `return True`, `timeoutFail` is
`return False`, `raised` is an uncaught `ClientError` re-raised from the
`describe_tasks` handler. -/
inductive WaitResult
  | success
  | timeoutFail
  | raised
deriving DecidableEq, Repr

/-- `wait_for_task` (lines 70-100) over a trace of poll observations.
Returns `none` when the trace runs out before the loop decides (the real
loop polls forever, so a decisive run corresponds to a long enough trace).
Per iteration, in source order: if the `list_tasks` result is truthy and has
`taskArns`, call `describe_tasks`; a response with a `tasks` key whose list
contains the target ARN returns `True`; the `Tasks cannot be empty.` error
only changes the progress message; any other `ClientError` is re-raised.
Then `return False` when the elapsed time exceeds the timeout, else loop. -/
def wait_for_task (new_task_def_arn : String) (timeout : Nat) : List PollObs → Option WaitResult
  | [] => none
  | obs :: rest =>
    let on_continue : Option WaitResult :=
      if obs.elapsed > timeout then some WaitResult.timeoutFail
      else wait_for_task new_task_def_arn timeout rest
    if obs.hasTaskArns then
      match obs.describe with
      | DescribeTasksOutcome.ok (some arns) =>
        if (arns.filter (fun x => x == new_task_def_arn)).length > 0 then
          some WaitResult.success
        else on_continue
      | DescribeTasksOutcome.ok none => on_continue
      | DescribeTasksOutcome.emptyErr => on_continue
      | DescribeTasksOutcome.otherErr => some WaitResult.raised
    else on_continue

/-- An observation on which the iteration returns `True`: the task list was
present and some described task's definition ARN equals the target. -/
def obsMatches (target : String) (o : PollObs) : Bool :=
  o.hasTaskArns &&
    (match o.describe with
     | DescribeTasksOutcome.ok (some arns) =>
       decide ((arns.filter (fun x => x == target)).length > 0)
     | _ => false)

/-- An observation on which the iteration re-raises a `ClientError`. -/
def obsRaises (o : PollObs) : Bool :=
  o.hasTaskArns &&
    (match o.describe with
     | DescribeTasksOutcome.otherErr => true
     | _ => false)

/-- An observation after which the loop keeps polling: no match, no
re-raised error, and the timeout not yet exceeded. -/
def obsContinues (target : String) (timeout : Nat) (o : PollObs) : Bool :=
  !(obsMatches target o) && !(obsRaises o) && decide (o.elapsed ≤ timeout)

/-- An observation whose iteration sees zero running tasks: either the
`list_tasks` response is falsy or lacks `taskArns`, or `describe_tasks`
fails with the `Tasks cannot be empty.` error. -/
def obsEmptyTasks (o : PollObs) : Bool :=
  !o.hasTaskArns ||
    (match o.describe with
     | DescribeTasksOutcome.emptyErr => true
     | _ => false)

/-- The name/port collection loop of `get_codedeploy_data` (lines 104-112):
for each container with a nonempty `portMappings` list, record its name and
the `containerPort` of the first mapping; containers raising
`IndexError`/`KeyError` (no mappings) are skipped. -/
def collect_port_containers : List ContainerDef → List String × List Nat
  | [] => ([], [])
  | c :: cs =>
    let acc := collect_port_containers cs
    match c.portMappings with
    | [] => acc
    | p :: _ => (c.name :: acc.1, p :: acc.2)

/-- `get_codedeploy_data` (lines 103-122).  `none` models `sys.exit(1)`
(more than one, or zero, port-mapped containers); otherwise the first
collected name and port are returned. -/
def get_codedeploy_data (task_definition : List ContainerDef) : Option (String × Nat) :=
  let collected := collect_port_containers task_definition
  if collected.2.length > 1 then none
  else
    match collected.1, collected.2 with
    | n :: _, p :: _ => some (n, p)
    | _, _ => none

/-- In-place update of the image of the first container named `n`
(models `container[0]["image"] = image[1]` on the list produced by the
name-filtering comprehension at lines 212-215). -/
def set_image_first (n : String) (i : String) : List ContainerDef → List ContainerDef
  | [] => []
  | c :: cs =>
    if c.name == n then { c with image := i } :: cs
    else c :: set_image_first n i cs

/-- The image-override loop (lines 209-218): for each `(name, image)` pair,
find the containers with that exact name in the current payload; if any
exists and the first one's image differs from the target, set `has_update`
and replace that first container's image.  Returns the final container list
and the final `has_update` flag. -/
def apply_images : List (String × String) → List ContainerDef → List ContainerDef × Bool
  | [], cs => (cs, false)
  | im :: rest, cs =>
    match cs.find? (fun c => c.name == im.1) with
    | some c =>
      if c.image != im.2 then
        ((apply_images rest (set_image_first im.1 im.2 cs)).1, true)
      else apply_images rest cs
    | none => apply_images rest cs

/-- One-shot reformulation of the `has_update` flag: some override pair
names an existing container (first match by exact name) whose image in the
ORIGINAL container list differs from the pair's target image. -/
def imageChanges (images : List (String × String)) (cs : List ContainerDef) : Bool :=
  images.any fun im =>
    match cs.find? (fun c => c.name == im.1) with
    | some c => c.image != im.2
    | none => false

/-- Outcome of one `ecs.describe_services` call: `found arn` is a normal
response whose first service carries `taskDefinition = arn`;
`serviceNotFound` is a response with an empty `services` list (reading
`services[0]` raises `IndexError`); `clusterNotFound` is the `ClientError`
whose message is `Cluster not found.`; `otherError` is any other
`ClientError`. -/
inductive DescribeServicesResult
  | found (taskDefArn : String)
  | serviceNotFound
  | clusterNotFound
  | otherError
deriving DecidableEq, Repr

/-- The environment, local config file, and remote API responses the script
interacts with.  `awsConfig` is `none` when `~/.aws/config` is missing
(`FileNotFoundError`); otherwise it maps a section name to the value of its
`region` option, when present.  `describeServices` is keyed by cluster and
the (optional) service name passed in the `services` tuple.
`describeTaskDefinition` yields the fetched definition for an ARN or name.
`registeredArn` is the `taskDefinitionArn` returned by
`register_task_definition`.  `pollTrace` drives `wait_for_task`. -/
structure World where
  envRegion : Option String
  awsConfig : Option (String → Option String)
  describeServices : String → Option String → DescribeServicesResult
  describeTaskDefinition : String → TaskDefinition
  registeredArn : String
  pollTrace : List PollObs

/-- `get_aws_region` (lines 37-51).  The environment variable wins; a
missing config file is swallowed (`region` stays `None`); a present config
file is queried at section `profile <name>` when a profile was given
(Python truthiness) and at section `default` otherwise, and a missing
section or `region` option raises an uncaught `configparser` error,
modelled as `Except.error ()`. -/
def get_aws_region (w : World) (aws_profile : Option String) : Except Unit (Option String) :=
  match w.envRegion with
  | some r => Except.ok (some r)
  | none =>
    match w.awsConfig with
    | none => Except.ok none
    | some config =>
      match (if pyTruthy aws_profile
             then config ("profile " ++ aws_profile.getD "")
             else config "default") with
      | some r => Except.ok (some r)
      | none => Except.error ()

/-- Line 154: `region = args.region if args.region else get_aws_region(args.profile)`. -/
def resolved_region (w : World) (args : Args) : Except Unit (Option String) :=
  if pyTruthy args.region then Except.ok args.region
  else get_aws_region w args.profile

/-- A remote AWS API call, with its arguments, in the order the script
issues them. -/
inductive RemoteCall
  | describeServicesCall (cluster : String) (service : Option String)
  | describeTaskDefinitionCall (taskDefinition : String)
  | registerTaskDefinitionCall (family : String) (volumes : List String)
      (containerDefinitions : List ContainerDef)
  | updateServiceCall (cluster : String) (service : String) (taskDefinition : String)
  | createDeploymentCall (applicationName : String) (deploymentGroupName : String)
      (taskDefinition : String) (containerName : String) (containerPort : Nat)
deriving DecidableEq, Repr

/-- Calls that only read remote state (issued by the phases before
registration). -/
def isBenignCall : RemoteCall → Bool
  | RemoteCall.describeServicesCall _ _ => true
  | RemoteCall.describeTaskDefinitionCall _ => true
  | _ => false

/-- Final state of the process: `exited c` models `sys.exit(c)` (or falling
off `main`), `raisedError` models an exception propagating out of `main`
uncaught. -/
inductive MainOutcome
  | exited (code : Nat)
  | raisedError
deriving DecidableEq, Repr

/-- The process exit status an outcome produces: `sys.exit(c)` exits with
`c`, and CPython exits with status 1 after printing a traceback for an
uncaught exception. -/
def processExitCode : MainOutcome → Nat
  | MainOutcome.exited c => c
  | MainOutcome.raisedError => 1

/-- Result of the naive "rules" block (lines 162-172): either `sys.exit(1)`,
or proceed with the (possibly implicitly enabled) update flag; `warned` is
true when the implicit-update warning was printed. -/
inductive RulesOutcome
  | exit1
  | proceed (warned : Bool) (update : Bool)
deriving DecidableEq, Repr

/-- Lines 162-172, with `update = args.update`, `hasTaskName` the truthiness
of `args.taskName` (a nonempty argparse list) and `hasCopy` the truthiness
of `args.copy`. -/
def naive_rules (update : Bool) (hasTaskName : Bool) (hasCopy : Bool) : RulesOutcome :=
  if update && hasTaskName then RulesOutcome.exit1
  else if hasCopy && !update then RulesOutcome.proceed true true
  else if !update && !hasTaskName && !hasCopy then RulesOutcome.exit1
  else RulesOutcome.proceed false update

/-- `get_task_arn` (lines 54-67): a found service yields its ARN; an empty
`services` list (`IndexError`) and the `Cluster not found.` `ClientError`
both print a message and yield `None`; any other `ClientError` is
re-raised. -/
def get_task_arn (w : World) (cluster : String) (service : Option String) : Except Unit (Option String) :=
  match w.describeServices cluster service with
  | DescribeServicesResult.found arn => Except.ok (some arn)
  | DescribeServicesResult.serviceNotFound => Except.ok none
  | DescribeServicesResult.clusterNotFound => Except.ok none
  | DescribeServicesResult.otherError => Except.error ()

/-- Line 180: `task_arn = get_task_arn(ecs, cluster, service) if args.update
else None` (with `args.update` possibly enabled implicitly by the rules).
Returns the resolved optional ARN and the remote calls issued; a re-raised
`ClientError` aborts the process. -/
def resolve_task_arn (w : World) (args : Args) (update : Bool) :
    Except (MainOutcome × List RemoteCall) (Option String × List RemoteCall) :=
  if update then
    match get_task_arn w args.cluster args.service with
    | Except.ok a =>
      Except.ok (a, [RemoteCall.describeServicesCall args.cluster args.service])
    | Except.error _ =>
      Except.error (MainOutcome.raisedError, [RemoteCall.describeServicesCall args.cluster args.service])
  else Except.ok (none, [])

/-- Lines 185-198: the override pairs are `deepcopy(args.image)` unless
`args.copy` is truthy, in which case the sibling service is described (any
failure there, `IndexError` or `ClientError`, is uncaught), its current
task definition fetched, and every container's `(name, image)` collected;
an empty collection prints a message and exits 1. -/
def resolve_images (w : World) (args : Args) (calls0 : List RemoteCall) :
    Except (MainOutcome × List RemoteCall) (List (String × String) × List RemoteCall) :=
  if pyTruthy args.copy then
    let c := args.copy.getD ""
    let calls1 := calls0 ++ [RemoteCall.describeServicesCall args.cluster (some c)]
    match w.describeServices args.cluster (some c) with
    | DescribeServicesResult.found copyArn =>
      let calls2 := calls1 ++ [RemoteCall.describeTaskDefinitionCall copyArn]
      let images := (w.describeTaskDefinition copyArn).containerDefinitions.map
        (fun cd => (cd.name, cd.image))
      if images.isEmpty then Except.error (MainOutcome.exited 1, calls2)
      else Except.ok (images, calls2)
    | _ => Except.error (MainOutcome.raisedError, calls1)
  else Except.ok (args.image, calls0)

/-- State after the phases of `main` up to line 198: the remote calls made
so far, the override pairs to apply, and the resolved source task ARN. -/
structure PrepOut where
  calls : List RemoteCall
  images : List (String × String)
  task_arn : String
deriving DecidableEq, Repr

/-- `main` up to line 198 in source order: the code-deploy argument check
(lines 148-152), region resolution and check (154-160), the naive rules
(162-172), source-ARN resolution and check (178-183), and the image-pair
resolution (185-198).  `Except.error` carries an early process outcome with
the trace at that point. -/
def prepare (w : World) (args : Args) : Except (MainOutcome × List RemoteCall) PrepOut :=
  if args.code_deploy && (!(pyTruthy args.app_name) || !(pyTruthy args.group_name)) then
    Except.error (MainOutcome.exited 1, [])
  else
    match resolved_region w args with
    | Except.error _ => Except.error (MainOutcome.raisedError, [])
    | Except.ok regionOpt =>
      if !(pyTruthy regionOpt) then Except.error (MainOutcome.exited 1, [])
      else
        match naive_rules args.update args.taskName.isSome (pyTruthy args.copy) with
        | RulesOutcome.exit1 => Except.error (MainOutcome.exited 1, [])
        | RulesOutcome.proceed _ update =>
          match resolve_task_arn w args update with
          | Except.error e => Except.error e
          | Except.ok (taskArnOpt, calls0) =>
            if !(pyTruthy taskArnOpt) then Except.error (MainOutcome.exited 1, calls0)
            else
              match resolve_images w args calls0 with
              | Except.error e => Except.error e
              | Except.ok (images, calls1) =>
                Except.ok { calls := calls1, images := images, task_arn := taskArnOpt.getD "" }

/-- The tail of `main` (lines 261-269): map the result of `wait_for_task`
to the final process outcome. -/
def finish_wait (w : World) (args : Args) (calls : List RemoteCall) :
    Option MainOutcome × List RemoteCall :=
  match wait_for_task w.registeredArn args.timeout w.pollTrace with
  | some WaitResult.success => (some (MainOutcome.exited 0), calls)
  | some WaitResult.timeoutFail => (some (MainOutcome.exited 1), calls)
  | some WaitResult.raised => (some MainOutcome.raisedError, calls)
  | none => (none, calls)

/-- `main` (lines 145-269).  After `prepare`, the source task definition is
fetched (line 200), the new payload is built from deep copies with the image
overrides applied (202-218), the only-if-modified gate may exit 0 (220-222),
the new revision is registered (224), and then either the bare success exit
(229-231), the code-deploy hand-off (233-254, where `get_codedeploy_data`
is computed from the ORIGINAL fetched container definitions and may exit 1),
or `update_service` (256-259), followed by the rollout wait (262-269).
The first component is `none` only when `pollTrace` is too short to decide. -/
def main_model (w : World) (args : Args) : Option MainOutcome × List RemoteCall :=
  match prepare w args with
  | Except.error (o, cs) => (some o, cs)
  | Except.ok p =>
    let calls0 := p.calls ++ [RemoteCall.describeTaskDefinitionCall p.task_arn]
    let task := w.describeTaskDefinition p.task_arn
    let applied := apply_images p.images task.containerDefinitions
    if args.onlyIfModified && !applied.2 then
      (some (MainOutcome.exited 0), calls0)
    else
      let calls1 := calls0 ++
        [RemoteCall.registerTaskDefinitionCall task.family task.volumes applied.1]
      if !(pyTruthy args.service) then
        (some (MainOutcome.exited 0), calls1)
      else
        if args.code_deploy then
          match get_codedeploy_data task.containerDefinitions with
          | none => (some (MainOutcome.exited 1), calls1)
          | some (cname, cport) =>
            finish_wait w args (calls1 ++
              [RemoteCall.createDeploymentCall (args.app_name.getD "") (args.group_name.getD "")
                w.registeredArn cname cport])
        else
          finish_wait w args (calls1 ++
            [RemoteCall.updateServiceCall args.cluster (args.service.getD "") w.registeredArn])

/-! ### Concrete fixtures used to instantiate the theorems -/

/-- A two-container task definition: `app` exposes port 8080, `sidecar`
exposes nothing. -/
def sampleContainers : List ContainerDef :=
  [{ name := "app", image := "myrepo/app:1", portMappings := [8080], rest := "appRest" },
   { name := "sidecar", image := "myrepo/side:1", portMappings := [], rest := "sideRest" }]

/-- A registered task definition for family `web`. -/
def sampleTaskDef : TaskDefinition :=
  { family := "web", volumes := ["vol0"], containerDefinitions := sampleContainers }

/-- A world where service `web` exists at revision `arn:web:3`, fetching any
definition yields `sampleTaskDef`, registration yields `arn:web:4`, and the
first poll already observes the new revision running. -/
def sampleWorld : World :=
  { envRegion := none
    awsConfig := none
    describeServices := fun _ sv =>
      if sv == some "web" then DescribeServicesResult.found "arn:web:3"
      else DescribeServicesResult.serviceNotFound
    describeTaskDefinition := fun _ => sampleTaskDef
    registeredArn := "arn:web:4"
    pollTrace := [{ hasTaskArns := true,
                    describe := DescribeTasksOutcome.ok (some ["arn:web:4"]),
                    elapsed := 1 }] }

/-- Like `sampleWorld`, but every fetched task definition has a single
container with no port mappings. -/
def noPortWorld : World :=
  { sampleWorld with
    describeTaskDefinition := fun _ =>
      { family := "web", volumes := [],
        containerDefinitions :=
          [{ name := "app", image := "myrepo/app:1", portMappings := [], rest := "appRest" }] } }

/-- A baseline invocation: `-r us-east-1 -s web -u -i app myrepo/app:2`. -/
def argsBase : Args :=
  { region := some "us-east-1", profile := none, cluster := "default",
    service := some "web", taskName := none, copy := none, update := true,
    image := [("app", "myrepo/app:2")], timeout := 90, backoff := 5,
    code_deploy := false, app_name := none, group_name := none,
    onlyIfModified := false }

/-- The baseline invocation in blue/green mode:
`--code-deploy -a myapp -g mygroup` added. -/
def argsCodeDeploy : Args :=
  { argsBase with code_deploy := true, app_name := some "myapp", group_name := some "mygroup" }

/-! ### Lemmas about the rollout waiter -/

/-- One polling iteration, in guard form: a match returns success, a
re-raised error aborts, an exceeded timeout returns failure, and otherwise
the loop continues on the rest of the trace. -/
theorem wait_for_task_cons (target : String) (timeout : Nat) (o : PollObs) (rest : List PollObs) :
    wait_for_task target timeout (o :: rest) =
      if obsMatches target o = true then some WaitResult.success
      else if obsRaises o = true then some WaitResult.raised
      else if o.elapsed > timeout then some WaitResult.timeoutFail
      else wait_for_task target timeout rest := by
  obtain ⟨h, d, e⟩ := o
  cases d with
  | ok tf =>
    cases tf with
    | none => cases h <;> simp [wait_for_task, obsMatches, obsRaises]
    | some arns =>
      cases h <;> simp only [wait_for_task, obsMatches, obsRaises] <;> split <;>
        simp_all
  | emptyErr => cases h <;> simp [wait_for_task, obsMatches, obsRaises]
  | otherErr => cases h <;> simp [wait_for_task, obsMatches, obsRaises]

theorem wait_success_iff (target : String) (timeout : Nat) (trace : List PollObs) :
    wait_for_task target timeout trace = some WaitResult.success ↔
      ∃ pre o post, trace = pre ++ o :: post ∧
        (∀ x ∈ pre, obsContinues target timeout x = true) ∧
        obsMatches target o = true := by
  induction trace with
  | nil =>
    simp only [wait_for_task]
    constructor
    · intro h; exact absurd h (by simp)
    · rintro ⟨pre, o, post, habs, -, -⟩
      exact absurd habs (by simp)
  | cons a tl ih =>
    rw [wait_for_task_cons]
    by_cases hm : obsMatches target a = true
    · rw [if_pos hm]
      constructor
      · intro _
        exact ⟨[], a, tl, rfl, by simp, hm⟩
      · intro _
        rfl
    · rw [if_neg (by simp [hm])]
      have split_cons : (∃ pre o post, a :: tl = pre ++ o :: post ∧
            (∀ x ∈ pre, obsContinues target timeout x = true) ∧
            obsMatches target o = true) ↔
          (obsContinues target timeout a = true ∧
            ∃ pre o post, tl = pre ++ o :: post ∧
              (∀ x ∈ pre, obsContinues target timeout x = true) ∧
              obsMatches target o = true) := by
        constructor
        · rintro ⟨pre, o, post, heq, hcont, hmatch⟩
          cases pre with
          | nil =>
            simp only [List.nil_append, List.cons.injEq] at heq
            exact absurd (heq.1 ▸ hmatch) hm
          | cons p0 pre' =>
            simp only [List.cons_append, List.cons.injEq] at heq
            refine ⟨heq.1 ▸ hcont p0 (by simp), pre', o, post, heq.2, ?_, hmatch⟩
            intro x hx
            exact hcont x (by simp [hx])
        · rintro ⟨ha, pre, o, post, heq, hcont, hmatch⟩
          refine ⟨a :: pre, o, post, by simp [heq], ?_, hmatch⟩
          intro x hx
          rcases List.mem_cons.mp hx with hx | hx
          · exact hx ▸ ha
          · exact hcont x hx
      by_cases hr : obsRaises a = true
      · rw [if_pos hr]
        constructor
        · intro h; exact absurd h (by simp)
        · intro h
          rcases (split_cons.mp h).1 with hc
          simp [obsContinues, hr] at hc
      · rw [if_neg (by simp [hr])]
        by_cases ht : a.elapsed > timeout
        · rw [if_pos ht]
          constructor
          · intro h; exact absurd h (by simp)
          · intro h
            rcases (split_cons.mp h).1 with hc
            simp [obsContinues] at hc
            omega
        · rw [if_neg ht]
          rw [ih, split_cons]
          have ha : obsContinues target timeout a = true := by
            simp [obsContinues, hm, hr]
            omega
          simp [ha]

theorem wait_timeout_iff (target : String) (timeout : Nat) (trace : List PollObs) :
    wait_for_task target timeout trace = some WaitResult.timeoutFail ↔
      ∃ pre o post, trace = pre ++ o :: post ∧
        (∀ x ∈ pre, obsContinues target timeout x = true) ∧
        obsMatches target o = false ∧ obsRaises o = false ∧ timeout < o.elapsed := by
  induction trace with
  | nil =>
    simp only [wait_for_task]
    constructor
    · intro h; exact absurd h (by simp)
    · rintro ⟨pre, o, post, habs, -⟩
      exact absurd habs (by simp)
  | cons a tl ih =>
    rw [wait_for_task_cons]
    have split_cons : (∃ pre o post, a :: tl = pre ++ o :: post ∧
          (∀ x ∈ pre, obsContinues target timeout x = true) ∧
          obsMatches target o = false ∧ obsRaises o = false ∧ timeout < o.elapsed) ↔
        ((obsMatches target a = false ∧ obsRaises a = false ∧ timeout < a.elapsed) ∨
          (obsContinues target timeout a = true ∧
            ∃ pre o post, tl = pre ++ o :: post ∧
              (∀ x ∈ pre, obsContinues target timeout x = true) ∧
              obsMatches target o = false ∧ obsRaises o = false ∧ timeout < o.elapsed)) := by
      constructor
      · rintro ⟨pre, o, post, heq, hcont, hdec⟩
        cases pre with
        | nil =>
          simp only [List.nil_append, List.cons.injEq] at heq
          exact Or.inl (heq.1 ▸ hdec)
        | cons p0 pre' =>
          simp only [List.cons_append, List.cons.injEq] at heq
          refine Or.inr ⟨heq.1 ▸ hcont p0 (by simp), pre', o, post, heq.2, ?_, hdec⟩
          intro x hx
          exact hcont x (by simp [hx])
      · rintro (hdec | ⟨ha, pre, o, post, heq, hcont, hdec⟩)
        · exact ⟨[], a, tl, rfl, by simp, hdec⟩
        · refine ⟨a :: pre, o, post, by simp [heq], ?_, hdec⟩
          intro x hx
          rcases List.mem_cons.mp hx with hx | hx
          · exact hx ▸ ha
          · exact hcont x hx
    rw [split_cons]
    by_cases hm : obsMatches target a = true
    · rw [if_pos hm]
      constructor
      · intro h; exact absurd h (by simp)
      · rintro (⟨hm', -⟩ | ⟨hc, -⟩)
        · exact absurd hm (by simp [hm'])
        · simp [obsContinues, hm] at hc
    · rw [if_neg (by simp [hm])]
      by_cases hr : obsRaises a = true
      · rw [if_pos hr]
        constructor
        · intro h; exact absurd h (by simp)
        · rintro (⟨-, hr', -⟩ | ⟨hc, -⟩)
          · exact absurd hr (by simp [hr'])
          · simp [obsContinues, hr] at hc
      · rw [if_neg (by simp [hr])]
        by_cases ht : a.elapsed > timeout
        · rw [if_pos ht]
          constructor
          · intro _
            exact Or.inl ⟨by simp [hm], by simp [hr], ht⟩
          · intro _
            rfl
        · rw [if_neg ht, ih]
          have ha : obsContinues target timeout a = true := by
            simp [obsContinues, hm, hr]
            omega
          constructor
          · intro h; exact Or.inr ⟨ha, h⟩
          · rintro (⟨-, -, ht'⟩ | ⟨-, h⟩)
            · omega
            · exact h

/-! ### Lemmas about the image-override loop -/

/-- The sequentially-computed `has_update` flag equals the one-shot
existence check against the original container list: mutation of the
payload during the loop never affects the flag, because the first pair
that changes anything already decides it. -/
theorem apply_images_snd (images : List (String × String)) (cs : List ContainerDef) :
    (apply_images images cs).2 = imageChanges images cs := by
  induction images generalizing cs with
  | nil => simp [apply_images, imageChanges]
  | cons im rest ih =>
    simp only [apply_images, imageChanges, List.any_cons]
    cases hf : cs.find? (fun c => c.name == im.1) with
    | none => simpa [imageChanges] using ih cs
    | some c =>
      by_cases hne : (c.image != im.2) = true
      · simp [hne]
      · simp only [Bool.not_eq_true] at hne
        simp [hne, imageChanges, ih cs]

/-- Composition of two elementwise relations along a middle list. -/
theorem forall2_step {α : Type} {R S T : α → α → Prop}
    (h : ∀ a b c, R a b → S b c → T a c) :
    ∀ {l1 l2 l3 : List α}, List.Forall₂ R l1 l2 → List.Forall₂ S l2 l3 →
      List.Forall₂ T l1 l3 := by
  intro l1 l2 l3 h12
  induction h12 generalizing l3 with
  | nil =>
    intro h23
    cases h23
    exact List.Forall₂.nil
  | cons hab h' ih =>
    intro h23
    cases h23 with
    | cons hbc h'' => exact List.Forall₂.cons (h _ _ _ hab hbc) (ih h'')

/-- Replacing the image of the first container named `n` preserves, for
every position, the name, port mappings and opaque remainder, and leaves
containers not named `n` entirely unchanged. -/
theorem set_image_first_forall2 (n i : String) (cs : List ContainerDef) :
    List.Forall₂ (fun c c' => c'.name = c.name ∧ c'.portMappings = c.portMappings ∧
      c'.rest = c.rest ∧ (c.name ≠ n → c' = c)) cs (set_image_first n i cs) := by
  induction cs with
  | nil => exact List.Forall₂.nil
  | cons c cs ih =>
    simp only [set_image_first]
    by_cases hc : (c.name == n) = true
    · rw [if_pos hc]
      refine List.Forall₂.cons ⟨rfl, rfl, rfl, fun hne => absurd (eq_of_beq hc) hne⟩ ?_
      exact (List.forall₂_same).mpr (fun x _ => ⟨rfl, rfl, rfl, fun _ => rfl⟩)
    · rw [if_neg hc]
      exact List.Forall₂.cons ⟨rfl, rfl, rfl, fun _ => rfl⟩ ih

/-- The override loop preserves, position by position, the name, port
mappings and opaque remainder of every container, and leaves every
container whose name is not among the override names entirely unchanged. -/
theorem apply_images_forall2 (images : List (String × String)) (cs : List ContainerDef) :
    List.Forall₂ (fun c c' => c'.name = c.name ∧ c'.portMappings = c.portMappings ∧
        c'.rest = c.rest ∧ (c.name ∉ images.map Prod.fst → c' = c))
      cs (apply_images images cs).1 := by
  induction images generalizing cs with
  | nil =>
    exact (List.forall₂_same).mpr (fun x _ => ⟨rfl, rfl, rfl, fun _ => rfl⟩)
  | cons im rest ih =>
    simp only [apply_images]
    cases hf : cs.find? (fun c => c.name == im.1) with
    | none =>
      dsimp only
      refine (ih cs).imp ?_
      rintro a b ⟨h1, h2, h3, h4⟩
      refine ⟨h1, h2, h3, fun hn => h4 ?_⟩
      intro hmem
      exact hn (by rw [List.map_cons]; exact List.mem_cons_of_mem _ hmem)
    | some c =>
      dsimp only
      by_cases hne : (c.image != im.2) = true
      · rw [if_pos hne]
        refine forall2_step ?_ (set_image_first_forall2 im.1 im.2 cs)
          (ih (set_image_first im.1 im.2 cs))
        rintro a b c' ⟨h1, h2, h3, h4⟩ ⟨g1, g2, g3, g4⟩
        refine ⟨g1.trans h1, g2.trans h2, g3.trans h3, fun hn => ?_⟩
        have hne1 : a.name ≠ im.1 := by
          intro he
          exact hn (by rw [List.map_cons, he]; exact List.mem_cons_self _ _)
        have hb : b = a := h4 hne1
        have hc' : c' = b := by
          apply g4
          rw [hb]
          intro hmem
          exact hn (by rw [List.map_cons]; exact List.mem_cons_of_mem _ hmem)
        rw [hc', hb]
      · rw [if_neg hne]
        refine (ih cs).imp ?_
        rintro a b ⟨h1, h2, h3, h4⟩
        refine ⟨h1, h2, h3, fun hn => h4 ?_⟩
        intro hmem
        exact hn (by rw [List.map_cons]; exact List.mem_cons_of_mem _ hmem)

/-! ### Trace-shape lemmas for the phases of main -/

/-- The rollout wait changes the outcome only; the trace of remote calls is
whatever was accumulated before it. -/
theorem finish_wait_snd (w : World) (args : Args) (cs : List RemoteCall) :
    (finish_wait w args cs).2 = cs := by
  unfold finish_wait
  cases wait_for_task w.registeredArn args.timeout w.pollTrace with
  | none => rfl
  | some r => cases r <;> rfl

/-- Source-ARN resolution issues only read-only calls. -/
theorem resolve_task_arn_calls (w : World) (args : Args) (u : Bool)
    (opt : Option String) (calls0 : List RemoteCall)
    (h : resolve_task_arn w args u = Except.ok (opt, calls0)) :
    ∀ c ∈ calls0, isBenignCall c = true := by
  unfold resolve_task_arn at h
  split at h
  · split at h
    · simp only [Except.ok.injEq, Prod.mk.injEq] at h
      rcases h with ⟨-, rfl⟩
      intro c hc
      simp only [List.mem_singleton] at hc
      subst hc
      rfl
    · simp at h
  · simp only [Except.ok.injEq, Prod.mk.injEq] at h
    rcases h with ⟨-, rfl⟩
    intro c hc
    simp at hc

/-- Image-pair resolution adds only read-only calls. -/
theorem resolve_images_calls (w : World) (args : Args) (calls0 : List RemoteCall)
    (hben : ∀ c ∈ calls0, isBenignCall c = true)
    (imgs : List (String × String)) (calls1 : List RemoteCall)
    (h : resolve_images w args calls0 = Except.ok (imgs, calls1)) :
    ∀ c ∈ calls1, isBenignCall c = true := by
  unfold resolve_images at h
  split at h
  · dsimp only at h
    split at h
    · split at h
      · simp at h
      · simp only [Except.ok.injEq, Prod.mk.injEq] at h
        rcases h with ⟨-, rfl⟩
        intro c hc
        rcases List.mem_append.mp hc with hc | hc
        · rcases List.mem_append.mp hc with hc | hc
          · exact hben c hc
          · simp only [List.mem_singleton] at hc
            subst hc
            rfl
        · simp only [List.mem_singleton] at hc
          subst hc
          rfl
    · simp at h
  · simp only [Except.ok.injEq, Prod.mk.injEq] at h
    rcases h with ⟨-, rfl⟩
    exact hben

/-- Every remote call made by the phases before registration is read-only:
in particular no `register_task_definition`, `update_service` or
`create_deployment` call is issued before line 200. -/
theorem prepare_calls_benign (w : World) (args : Args) (p : PrepOut)
    (hp : prepare w args = Except.ok p) :
    ∀ c ∈ p.calls, isBenignCall c = true := by
  unfold prepare at hp
  by_cases h1 : (args.code_deploy && (!(pyTruthy args.app_name) || !(pyTruthy args.group_name))) = true
  · rw [if_pos h1] at hp
    simp at hp
  · rw [if_neg h1] at hp
    cases hR : resolved_region w args with
    | error e =>
      rw [hR] at hp
      simp at hp
    | ok regionOpt =>
      rw [hR] at hp
      dsimp only at hp
      by_cases h2 : (!(pyTruthy regionOpt)) = true
      · rw [if_pos h2] at hp
        simp at hp
      · rw [if_neg h2] at hp
        cases hN : naive_rules args.update args.taskName.isSome (pyTruthy args.copy) with
        | exit1 =>
          rw [hN] at hp
          simp at hp
        | proceed warned update =>
          rw [hN] at hp
          dsimp only at hp
          cases hA : resolve_task_arn w args update with
          | error e =>
            rw [hA] at hp
            simp at hp
          | ok pr =>
            obtain ⟨taskArnOpt, calls0⟩ := pr
            rw [hA] at hp
            dsimp only at hp
            by_cases h3 : (!(pyTruthy taskArnOpt)) = true
            · rw [if_pos h3] at hp
              simp at hp
            · rw [if_neg h3] at hp
              cases hI : resolve_images w args calls0 with
              | error e =>
                rw [hI] at hp
                simp at hp
              | ok pr2 =>
                obtain ⟨imgs, calls1⟩ := pr2
                rw [hI] at hp
                simp only [Except.ok.injEq] at hp
                subst hp
                exact resolve_images_calls w args calls0
                  (resolve_task_arn_calls w args update taskArnOpt calls0 hA) imgs calls1 hI

/-- Unfolding of `main_model` once the preparation phases have succeeded. -/
theorem main_model_ok (w : World) (args : Args) (p : PrepOut)
    (hp : prepare w args = Except.ok p) :
    main_model w args =
      (let task := w.describeTaskDefinition p.task_arn
       let applied := apply_images p.images task.containerDefinitions
       let calls0 := p.calls ++ [RemoteCall.describeTaskDefinitionCall p.task_arn]
       if args.onlyIfModified && !applied.2 then
         (some (MainOutcome.exited 0), calls0)
       else
         let calls1 := calls0 ++
           [RemoteCall.registerTaskDefinitionCall task.family task.volumes applied.1]
         if !(pyTruthy args.service) then
           (some (MainOutcome.exited 0), calls1)
         else
           if args.code_deploy then
             match get_codedeploy_data task.containerDefinitions with
             | none => (some (MainOutcome.exited 1), calls1)
             | some (cname, cport) =>
               finish_wait w args (calls1 ++
                 [RemoteCall.createDeploymentCall (args.app_name.getD "") (args.group_name.getD "")
                   w.registeredArn cname cport])
           else
             finish_wait w args (calls1 ++
               [RemoteCall.updateServiceCall args.cluster (args.service.getD "")
                 w.registeredArn])) := by
  unfold main_model
  rw [hp]

theorem append_left_extends2 {α : Type} (a x y : List α) :
    ∃ t, (a ++ x) ++ y = a ++ t :=
  ⟨x ++ y, by simp [List.append_assoc]⟩

theorem append_left_extends3 {α : Type} (a x y z : List α) :
    ∃ t, ((a ++ x) ++ y) ++ z = a ++ t :=
  ⟨x ++ (y ++ z), by simp [List.append_assoc]⟩

/-- Whatever happens after the preparation phases, the final remote-call
trace extends the preparation trace. -/
theorem main_model_trace_extends (w : World) (args : Args) (p : PrepOut)
    (hp : prepare w args = Except.ok p) :
    ∃ tail, (main_model w args).2 = p.calls ++ tail := by
  rw [main_model_ok w args p hp]
  dsimp only
  split
  · exact ⟨[RemoteCall.describeTaskDefinitionCall p.task_arn], rfl⟩
  · split
    · exact append_left_extends2 _ _ _
    · split
      · split
        · exact append_left_extends2 _ _ _
        · rw [finish_wait_snd]
          exact append_left_extends3 _ _ _ _
      · rw [finish_wait_snd]
        exact append_left_extends3 _ _ _ _

/-! ### Claim theorems -/

/-- Claim C3: for every run of the rollout waiter, it returns success
exactly when some polled iteration observes a running task whose task
definition ARN equals the target, all earlier iterations having observed no
match, no fatal error and no expired timeout (so success comes as soon as
any polled task matches); and it returns failure exactly when an iteration
finds the elapsed time beyond the configured timeout, no iteration up to
and including it having matched or raised. -/
theorem claim_C3_waiter_success_and_timeout (target : String) (timeout : Nat)
    (trace : List PollObs) :
    (wait_for_task target timeout trace = some WaitResult.success ↔
      ∃ pre o post, trace = pre ++ o :: post ∧
        (∀ x ∈ pre, obsContinues target timeout x = true) ∧
        obsMatches target o = true) ∧
    (wait_for_task target timeout trace = some WaitResult.timeoutFail ↔
      ∃ pre o post, trace = pre ++ o :: post ∧
        (∀ x ∈ pre, obsContinues target timeout x = true) ∧
        obsMatches target o = false ∧ obsRaises o = false ∧ timeout < o.elapsed) :=
  ⟨wait_success_iff target timeout trace, wait_timeout_iff target timeout trace⟩

/-- Concrete instance of claim C3: a match on the second poll returns
success, and an expired timeout with no match returns failure. -/
theorem claim_C3_witness :
    wait_for_task "arn:web:4" 5
      [{ hasTaskArns := true, describe := DescribeTasksOutcome.emptyErr, elapsed := 1 },
       { hasTaskArns := true, describe := DescribeTasksOutcome.ok (some ["arn:web:4"]), elapsed := 3 }] =
      some WaitResult.success ∧
    wait_for_task "arn:web:4" 5
      [{ hasTaskArns := true, describe := DescribeTasksOutcome.ok (some ["arn:web:3"]), elapsed := 2 },
       { hasTaskArns := true, describe := DescribeTasksOutcome.ok (some ["arn:web:3"]), elapsed := 6 }] =
      some WaitResult.timeoutFail := by
  constructor
  · exact (claim_C3_waiter_success_and_timeout "arn:web:4" 5 _).1.mpr
      ⟨[{ hasTaskArns := true, describe := DescribeTasksOutcome.emptyErr, elapsed := 1 }],
        { hasTaskArns := true, describe := DescribeTasksOutcome.ok (some ["arn:web:4"]), elapsed := 3 },
        [], rfl, by decide, by decide⟩
  · exact (claim_C3_waiter_success_and_timeout "arn:web:4" 5 _).2.mpr
      ⟨[{ hasTaskArns := true, describe := DescribeTasksOutcome.ok (some ["arn:web:3"]), elapsed := 2 }],
        { hasTaskArns := true, describe := DescribeTasksOutcome.ok (some ["arn:web:3"]), elapsed := 6 },
        [], rfl, by decide, by decide, by decide, by decide⟩

/-- Claim C6: a poll iteration that observes zero running task ARNs —
either a `list_tasks` response without `taskArns`, or the orchestrator's
`Tasks cannot be empty.` error from `describe_tasks` — never terminates the
loop with an error: the loop proceeds exactly as "nothing running yet"
(timeout check, then keep polling); and any other `ClientError` from
`describe_tasks` is propagated unmodified. -/
theorem claim_C6_empty_tasks_continue (target : String) (timeout : Nat)
    (o : PollObs) (rest : List PollObs) :
    (obsEmptyTasks o = true →
      wait_for_task target timeout (o :: rest) =
        if o.elapsed > timeout then some WaitResult.timeoutFail
        else wait_for_task target timeout rest) ∧
    (obsRaises o = true →
      wait_for_task target timeout (o :: rest) = some WaitResult.raised) := by
  obtain ⟨h1, d, e⟩ := o
  rw [wait_for_task_cons]
  constructor
  · intro hemp
    have hm : obsMatches target ⟨h1, d, e⟩ = false := by
      cases h1 <;> cases d <;> simp_all [obsEmptyTasks, obsMatches]
    have hr : obsRaises ⟨h1, d, e⟩ = false := by
      cases h1 <;> cases d <;> simp_all [obsEmptyTasks, obsRaises]
    rw [if_neg (by simp [hm]), if_neg (by simp [hr])]
  · intro hrr
    have hm : obsMatches target ⟨h1, d, e⟩ = false := by
      cases h1 <;> cases d <;> simp_all [obsRaises, obsMatches]
    rw [if_neg (by simp [hm]), if_pos hrr]

/-- Concrete instance of claim C6: an iteration with no `taskArns` key and
one with the `Tasks cannot be empty.` error both keep polling (here until
the trace runs out), while another `ClientError` aborts. -/
theorem claim_C6_witness :
    wait_for_task "arn:web:4" 5
      [{ hasTaskArns := false, describe := DescribeTasksOutcome.ok none, elapsed := 1 },
       { hasTaskArns := true, describe := DescribeTasksOutcome.emptyErr, elapsed := 2 }] = none ∧
    wait_for_task "arn:web:4" 5
      [{ hasTaskArns := true, describe := DescribeTasksOutcome.otherErr, elapsed := 1 }] =
      some WaitResult.raised := by
  constructor
  · have h2 := (claim_C6_empty_tasks_continue "arn:web:4" 5
      { hasTaskArns := true, describe := DescribeTasksOutcome.emptyErr, elapsed := 2 } []).1 rfl
    have h1 := (claim_C6_empty_tasks_continue "arn:web:4" 5
      { hasTaskArns := false, describe := DescribeTasksOutcome.ok none, elapsed := 1 }
      [{ hasTaskArns := true, describe := DescribeTasksOutcome.emptyErr, elapsed := 2 }]).1 rfl
    rw [h1]
    norm_num
    rw [h2]
    norm_num
    rfl
  · exact (claim_C6_empty_tasks_continue "arn:web:4" 5
      { hasTaskArns := true, describe := DescribeTasksOutcome.otherErr, elapsed := 1 } []).2 rfl

/-- Claim C5: for every override set, the new payload's container list has
one entry per source container, in order; every entry keeps the source
container's name, port mappings and all other fields (`rest`); and every
container whose name is not among the override names is kept entirely
unchanged — so only the image field of name-matched containers is ever
replaced.  The fetched source list itself is a value and is untouched (the
payload is built from copies); `main` later reads the original list again
for the code-deploy data. -/
theorem claim_C5_payload_preserves_containers (images : List (String × String))
    (cs : List ContainerDef) :
    (apply_images images cs).1.length = cs.length ∧
    List.Forall₂ (fun c c' => c'.name = c.name ∧ c'.portMappings = c.portMappings ∧
        c'.rest = c.rest ∧ (c.name ∉ images.map Prod.fst → c' = c))
      cs (apply_images images cs).1 :=
  ⟨(apply_images_forall2 images cs).length_eq.symm, apply_images_forall2 images cs⟩

/-- Concrete instance of claim C5 on the sample containers: overriding
`app`'s image preserves the untouched `sidecar` byte-for-byte and keeps
`app`'s name, ports and remaining fields. -/
theorem claim_C5_witness :
    (apply_images [("app", "myrepo/app:2")] sampleContainers).1.length =
      sampleContainers.length ∧
    List.Forall₂ (fun c c' => c'.name = c.name ∧ c'.portMappings = c.portMappings ∧
        c'.rest = c.rest ∧ (c.name ∉ [("app", "myrepo/app:2")].map Prod.fst → c' = c))
      sampleContainers (apply_images [("app", "myrepo/app:2")] sampleContainers).1 :=
  claim_C5_payload_preserves_containers [("app", "myrepo/app:2")] sampleContainers

/-- Claim C7: an invocation that passes both the update flag and an
explicit task-definition name, and likewise an invocation that passes none
of update, explicit name or copy-images, terminates with process exit
status 1 having made no remote call whatsoever.  (The earlier code-deploy
argument check and region resolution can also end the process first, but
every such ending is exit status 1 with no remote call either.) -/
theorem claim_C7_mutual_exclusion (w : World) (args : Args)
    (h : (args.update = true ∧ args.taskName.isSome = true) ∨
         (args.update = false ∧ args.taskName = none ∧ pyTruthy args.copy = false)) :
    (main_model w args).2 = [] ∧
      ∃ o, (main_model w args).1 = some o ∧ processExitCode o = 1 := by
  have hrules : naive_rules args.update args.taskName.isSome (pyTruthy args.copy) =
      RulesOutcome.exit1 := by
    rcases h with ⟨h1, h2⟩ | ⟨h1, h2, h3⟩
    · simp [naive_rules, h1, h2]
    · simp [naive_rules, h1, h2, h3]
  unfold main_model prepare
  by_cases h1 : (args.code_deploy && (!(pyTruthy args.app_name) || !(pyTruthy args.group_name))) = true
  · rw [if_pos h1]
    exact ⟨rfl, MainOutcome.exited 1, rfl, rfl⟩
  · rw [if_neg h1]
    cases hR : resolved_region w args with
    | error e =>
      exact ⟨rfl, MainOutcome.raisedError, rfl, rfl⟩
    | ok regionOpt =>
      dsimp only
      by_cases h2 : (!(pyTruthy regionOpt)) = true
      · rw [if_pos h2]
        exact ⟨rfl, MainOutcome.exited 1, rfl, rfl⟩
      · rw [if_neg h2, hrules]
        exact ⟨rfl, MainOutcome.exited 1, rfl, rfl⟩

/-- Concrete instance of claim C7: `-u` together with `-d web-task` exits 1
with an empty remote-call trace. -/
theorem claim_C7_witness :
    (main_model sampleWorld { argsBase with taskName := some "web-task" }).2 = [] ∧
      ∃ o, (main_model sampleWorld { argsBase with taskName := some "web-task" }).1 = some o ∧
        processExitCode o = 1 :=
  claim_C7_mutual_exclusion sampleWorld _ (Or.inl ⟨rfl, rfl⟩)

/-- Claim C10: when copy-images and an explicit task-definition name are
both supplied without the update flag, the mutual-exclusion rule does not
fire: the rules outcome is the implicit-update warning with update enabled
(not exit 1), and the whole run is bitwise independent of the supplied
task-definition name — the name is silently ignored, so the source ARN can
only come from the service lookup. -/
theorem claim_C10_copy_ignores_explicit_name (w : World) (args : Args) (t : Option String)
    (hcopy : pyTruthy args.copy = true) (hupd : args.update = false) :
    naive_rules args.update args.taskName.isSome (pyTruthy args.copy) =
      RulesOutcome.proceed true true ∧
    main_model w { args with taskName := t } = main_model w args := by
  have hrules : ∀ x : Bool, naive_rules args.update x (pyTruthy args.copy) =
      RulesOutcome.proceed true true := by
    intro x
    rw [hupd, hcopy]
    simp [naive_rules]
  refine ⟨hrules _, ?_⟩
  have hRR : resolved_region w { args with taskName := t } = resolved_region w args := rfl
  have hTA : ∀ u, resolve_task_arn w { args with taskName := t } u =
      resolve_task_arn w args u := fun _ => rfl
  have hRI : ∀ cs, resolve_images w { args with taskName := t } cs =
      resolve_images w args cs := fun _ => rfl
  have hprep : prepare w { args with taskName := t } = prepare w args := by
    unfold prepare
    dsimp only
    rw [hrules t.isSome, hrules args.taskName.isSome]
    simp only [hRR, hTA, hRI]
  have hFW : ∀ cs, finish_wait w { args with taskName := t } cs =
      finish_wait w args cs := fun _ => rfl
  unfold main_model
  dsimp only
  rw [hprep]
  simp only [hFW]

/-- Concrete instance of claim C10: with `-k sibling -d web-task` and no
`-u`, the rules proceed with the warning and the run equals the one without
`-d web-task`. -/
theorem claim_C10_witness :
    naive_rules ({ argsBase with update := false, copy := some "sibling" } : Args).update
        ({ argsBase with update := false, copy := some "sibling" } : Args).taskName.isSome
        (pyTruthy ({ argsBase with update := false, copy := some "sibling" } : Args).copy) =
      RulesOutcome.proceed true true ∧
    main_model sampleWorld
        { argsBase with update := false, copy := some "sibling", taskName := some "web-task" } =
      main_model sampleWorld { argsBase with update := false, copy := some "sibling" } :=
  claim_C10_copy_ignores_explicit_name sampleWorld
    { argsBase with update := false, copy := some "sibling" } (some "web-task") rfl rfl

/-- Claim C4: once the preparation phases succeed, with the
only-if-modified flag a `register_task_definition` call occurs if and only
if some override pair names an existing container whose current image
differs from the pair's target image (the flag decision is equivalent to
this one-shot check against the fetched containers); when no such change
occurs the process exits 0 with no registration call in the trace; and
without the flag the registration call is made unconditionally. -/
theorem claim_C4_register_iff_modified (w : World) (args : Args) (p : PrepOut)
    (hp : prepare w args = Except.ok p) :
    (args.onlyIfModified = true →
      ((∃ f v cds, RemoteCall.registerTaskDefinitionCall f v cds ∈ (main_model w args).2) ↔
        imageChanges p.images (w.describeTaskDefinition p.task_arn).containerDefinitions = true)) ∧
    (args.onlyIfModified = true →
      imageChanges p.images (w.describeTaskDefinition p.task_arn).containerDefinitions = false →
      main_model w args =
        (some (MainOutcome.exited 0),
          p.calls ++ [RemoteCall.describeTaskDefinitionCall p.task_arn])) ∧
    (args.onlyIfModified = false →
      RemoteCall.registerTaskDefinitionCall (w.describeTaskDefinition p.task_arn).family
          (w.describeTaskDefinition p.task_arn).volumes
          (apply_images p.images (w.describeTaskDefinition p.task_arn).containerDefinitions).1 ∈
        (main_model w args).2) := by
  have hben := prepare_calls_benign w args p hp
  have hsnd := apply_images_snd p.images (w.describeTaskDefinition p.task_arn).containerDefinitions
  have hmain := main_model_ok w args p hp
  have F1 : (args.onlyIfModified &&
        !(apply_images p.images (w.describeTaskDefinition p.task_arn).containerDefinitions).2) = false →
      RemoteCall.registerTaskDefinitionCall (w.describeTaskDefinition p.task_arn).family
          (w.describeTaskDefinition p.task_arn).volumes
          (apply_images p.images (w.describeTaskDefinition p.task_arn).containerDefinitions).1 ∈
        (main_model w args).2 := by
    intro hgate
    rw [hmain]
    dsimp only
    rw [if_neg (by simp [hgate])]
    by_cases hsvc : (!(pyTruthy args.service)) = true
    · rw [if_pos hsvc]
      simp
    · rw [if_neg hsvc]
      by_cases hcd : args.code_deploy = true
      · rw [if_pos hcd]
        cases hG : get_codedeploy_data (w.describeTaskDefinition p.task_arn).containerDefinitions with
        | none => simp
        | some pr =>
          obtain ⟨cname, cport⟩ := pr
          simp [finish_wait_snd]
      · rw [if_neg hcd]
        simp [finish_wait_snd]
  have F2 : (args.onlyIfModified &&
        !(apply_images p.images (w.describeTaskDefinition p.task_arn).containerDefinitions).2) = true →
      main_model w args =
        (some (MainOutcome.exited 0),
          p.calls ++ [RemoteCall.describeTaskDefinitionCall p.task_arn]) := by
    intro hgate
    rw [hmain]
    dsimp only
    rw [if_pos hgate]
  have hNoReg : ∀ f v cds, RemoteCall.registerTaskDefinitionCall f v cds ∉
      p.calls ++ [RemoteCall.describeTaskDefinitionCall p.task_arn] := by
    intro f v cds hmem
    rcases List.mem_append.mp hmem with hc | hc
    · have hb := hben _ hc
      simp [isBenignCall] at hb
    · simp at hc
  refine ⟨?_, ?_, ?_⟩
  · intro hmod
    constructor
    · intro hex
      by_contra hchg
      have hchg' : imageChanges p.images
          (w.describeTaskDefinition p.task_arn).containerDefinitions = false := by
        revert hchg
        cases imageChanges p.images (w.describeTaskDefinition p.task_arn).containerDefinitions <;>
          simp
      have happ : (apply_images p.images
          (w.describeTaskDefinition p.task_arn).containerDefinitions).2 = false := by
        rw [hsnd, hchg']
      obtain ⟨f, v, cds, hmem⟩ := hex
      rw [F2 (by rw [hmod, happ]; rfl)] at hmem
      exact hNoReg f v cds hmem
    · intro hchg
      have happ : (apply_images p.images
          (w.describeTaskDefinition p.task_arn).containerDefinitions).2 = true := by
        rw [hsnd, hchg]
      exact ⟨_, _, _, F1 (by rw [happ]; simp)⟩
  · intro hmod hchg
    have happ : (apply_images p.images
        (w.describeTaskDefinition p.task_arn).containerDefinitions).2 = false := by
      rw [hsnd, hchg]
    exact F2 (by rw [hmod, happ]; rfl)
  · intro hmod
    exact F1 (by rw [hmod]; simp)

/-- Concrete instance of claim C4: with the flag and an override equal to
the current image, the run exits 0 right after the describe call with no
registration; with the flag and a genuinely new image, a registration call
appears in the trace. -/
theorem claim_C4_witness :
    main_model sampleWorld
        { argsBase with onlyIfModified := true, image := [("app", "myrepo/app:1")] } =
      (some (MainOutcome.exited 0),
        [RemoteCall.describeServicesCall "default" (some "web"),
         RemoteCall.describeTaskDefinitionCall "arn:web:3"]) ∧
    (∃ f v cds, RemoteCall.registerTaskDefinitionCall f v cds ∈
      (main_model sampleWorld { argsBase with onlyIfModified := true }).2) := by
  constructor
  · exact (claim_C4_register_iff_modified sampleWorld
      { argsBase with onlyIfModified := true, image := [("app", "myrepo/app:1")] }
      { calls := [RemoteCall.describeServicesCall "default" (some "web")],
        images := [("app", "myrepo/app:1")], task_arn := "arn:web:3" }
      (by rfl)).2.1 rfl (by decide)
  · exact ((claim_C4_register_iff_modified sampleWorld
      { argsBase with onlyIfModified := true }
      { calls := [RemoteCall.describeServicesCall "default" (some "web")],
        images := [("app", "myrepo/app:2")], task_arn := "arn:web:3" }
      (by rfl)).1 rfl).mpr (by decide)

/-- Claim C8: an invocation supplying copy-images without the update flag
implicitly enables update mode with a warning (`proceed true true`), not an
error, and then proceeds as an in-place update: the first remote call of
the run is the `describe_services` lookup of the named service, i.e. the
source ARN is resolved by service lookup. -/
theorem claim_C8_copy_implies_update (w : World) (args : Args)
    (hcopy : pyTruthy args.copy = true) (hupd : args.update = false)
    (hcd : (args.code_deploy && (!(pyTruthy args.app_name) || !(pyTruthy args.group_name))) = false)
    (hr : ∃ r, resolved_region w args = Except.ok (some r) ∧ r ≠ "") :
    naive_rules args.update args.taskName.isSome (pyTruthy args.copy) =
      RulesOutcome.proceed true true ∧
    (main_model w args).2.head? =
      some (RemoteCall.describeServicesCall args.cluster args.service) := by
  have hrules : naive_rules args.update args.taskName.isSome (pyTruthy args.copy) =
      RulesOutcome.proceed true true := by
    rw [hupd, hcopy]
    simp [naive_rules]
  refine ⟨hrules, ?_⟩
  obtain ⟨r, hR, hrne⟩ := hr
  have htr : pyTruthy (some r) = true := by simp [pyTruthy, hrne]
  have key : (∃ o cs, prepare w args = Except.error (o, cs) ∧
        cs.head? = some (RemoteCall.describeServicesCall args.cluster args.service)) ∨
      (∃ p, prepare w args = Except.ok p ∧
        p.calls.head? = some (RemoteCall.describeServicesCall args.cluster args.service)) := by
    unfold prepare
    rw [if_neg (by simp [hcd]), hR]
    dsimp only
    rw [if_neg (by simp [htr]), hrules]
    dsimp only
    unfold resolve_task_arn
    rw [if_pos rfl]
    unfold get_task_arn
    cases hG : w.describeServices args.cluster args.service with
    | found arn =>
      dsimp only
      by_cases harn : (!(pyTruthy (some arn))) = true
      · rw [if_pos harn]
        exact Or.inl ⟨_, _, rfl, rfl⟩
      · rw [if_neg harn]
        unfold resolve_images
        rw [if_pos hcopy]
        dsimp only
        cases hG2 : w.describeServices args.cluster (some (args.copy.getD "")) with
        | found copyArn =>
          dsimp only
          by_cases hemp : (List.map (fun cd => (cd.name, cd.image))
              (w.describeTaskDefinition copyArn).containerDefinitions).isEmpty = true
          · rw [if_pos hemp]
            exact Or.inl ⟨_, _, rfl, rfl⟩
          · rw [if_neg hemp]
            exact Or.inr ⟨_, rfl, rfl⟩
        | serviceNotFound => exact Or.inl ⟨_, _, rfl, rfl⟩
        | clusterNotFound => exact Or.inl ⟨_, _, rfl, rfl⟩
        | otherError => exact Or.inl ⟨_, _, rfl, rfl⟩
    | serviceNotFound =>
      dsimp only
      rw [if_pos (show (!pyTruthy (none : Option String)) = true from rfl)]
      exact Or.inl ⟨_, _, rfl, rfl⟩
    | clusterNotFound =>
      dsimp only
      rw [if_pos (show (!pyTruthy (none : Option String)) = true from rfl)]
      exact Or.inl ⟨_, _, rfl, rfl⟩
    | otherError => exact Or.inl ⟨_, _, rfl, rfl⟩
  rcases key with ⟨o, cs, hp, hhd⟩ | ⟨p, hp, hhd⟩
  · unfold main_model
    rw [hp]
    exact hhd
  · obtain ⟨tail, htail⟩ := main_model_trace_extends w args p hp
    rw [htail]
    cases hcalls : p.calls with
    | nil =>
      rw [hcalls] at hhd
      simp at hhd
    | cons a rest =>
      rw [hcalls] at hhd
      rw [List.cons_append]
      simpa using hhd

/-- Concrete instance of claim C8: `-k sibling` without `-u` proceeds with
the warning and starts by describing service `web`. -/
theorem claim_C8_witness :
    naive_rules ({ argsBase with update := false, copy := some "sibling" } : Args).update
        ({ argsBase with update := false, copy := some "sibling" } : Args).taskName.isSome
        (pyTruthy ({ argsBase with update := false, copy := some "sibling" } : Args).copy) =
      RulesOutcome.proceed true true ∧
    (main_model sampleWorld { argsBase with update := false, copy := some "sibling" }).2.head? =
      some (RemoteCall.describeServicesCall "default" (some "web")) :=
  claim_C8_copy_implies_update sampleWorld
    { argsBase with update := false, copy := some "sibling" }
    (by decide) rfl rfl ⟨"us-east-1", rfl, by decide⟩

/-- Counterexample to claim C2 as stated: a blue/green invocation against a
task definition with zero port-mapped containers does exit 1 and submits no
deployment, but the trace at exit already contains the
`register_task_definition` call — the fatal port-mapping error is reported
only after that remote mutation, because `main` registers the new revision
(line 224) before `get_codedeploy_data` runs (line 236). -/
theorem claim_C2_counterexample :
    main_model noPortWorld argsCodeDeploy =
      (some (MainOutcome.exited 1),
        [RemoteCall.describeServicesCall "default" (some "web"),
         RemoteCall.describeTaskDefinitionCall "arn:web:3",
         RemoteCall.registerTaskDefinitionCall "web" []
           [{ name := "app", image := "myrepo/app:2", portMappings := [], rest := "appRest" }]]) := by
  decide

/-- Claim C2 as amended: for every blue/green-mode invocation whose source
task definition has zero or two-or-more port-mapped containers (i.e. the
port check fails), and which reaches the dispatch stage, the process exits
with code 1 and no deployment is ever submitted (no `create_deployment`
call occurs) — but the new task-definition revision has already been
registered before the check fires. -/
theorem claim_C2_amended_exit_before_deployment (w : World) (args : Args) (p : PrepOut)
    (hp : prepare w args = Except.ok p)
    (hcd : args.code_deploy = true)
    (hsvc : pyTruthy args.service = true)
    (hgate : (args.onlyIfModified &&
      !(apply_images p.images (w.describeTaskDefinition p.task_arn).containerDefinitions).2) = false)
    (hports : get_codedeploy_data (w.describeTaskDefinition p.task_arn).containerDefinitions = none) :
    (main_model w args).1 = some (MainOutcome.exited 1) ∧
    (∀ a g arn n pt, RemoteCall.createDeploymentCall a g arn n pt ∉ (main_model w args).2) ∧
    RemoteCall.registerTaskDefinitionCall (w.describeTaskDefinition p.task_arn).family
        (w.describeTaskDefinition p.task_arn).volumes
        (apply_images p.images (w.describeTaskDefinition p.task_arn).containerDefinitions).1 ∈
      (main_model w args).2 := by
  have hben := prepare_calls_benign w args p hp
  have hM : main_model w args =
      (some (MainOutcome.exited 1),
        (p.calls ++ [RemoteCall.describeTaskDefinitionCall p.task_arn]) ++
          [RemoteCall.registerTaskDefinitionCall (w.describeTaskDefinition p.task_arn).family
            (w.describeTaskDefinition p.task_arn).volumes
            (apply_images p.images (w.describeTaskDefinition p.task_arn).containerDefinitions).1]) := by
    rw [main_model_ok w args p hp]
    dsimp only
    rw [if_neg (by simp [hgate]), if_neg (by simp [hsvc]), if_pos hcd, hports]
  rw [hM]
  refine ⟨rfl, ?_, by simp⟩
  intro a g arn n pt hmem
  rcases List.mem_append.mp hmem with hc | hc
  · rcases List.mem_append.mp hc with hc2 | hc2
    · have hb := hben _ hc2
      simp [isBenignCall] at hb
    · simp at hc2
  · simp at hc

/-- Concrete instance of the amended claim C2 on the zero-port world. -/
theorem claim_C2_amended_witness :
    (main_model noPortWorld argsCodeDeploy).1 = some (MainOutcome.exited 1) ∧
    (∀ a g arn n pt, RemoteCall.createDeploymentCall a g arn n pt ∉
      (main_model noPortWorld argsCodeDeploy).2) ∧
    RemoteCall.registerTaskDefinitionCall "web" []
        [{ name := "app", image := "myrepo/app:2", portMappings := [], rest := "appRest" }] ∈
      (main_model noPortWorld argsCodeDeploy).2 :=
  claim_C2_amended_exit_before_deployment noPortWorld argsCodeDeploy
    { calls := [RemoteCall.describeServicesCall "default" (some "web")],
      images := [("app", "myrepo/app:2")], task_arn := "arn:web:3" }
    (by rfl) rfl rfl (by decide) (by decide)

/-- Claim C1 fails on the code: an invocation that supplies an explicit
task-definition name without the update flag passes validation but then
sets `task_arn` to `None` (line 180 consults `get_task_arn` only when
updating and `args.taskName` is never read again), prints `Unable to locate
ARN for task.` and exits 1 — for EVERY world, with an empty remote-call
trace: the literal name is never resolved, no definition is fetched, and no
revision is registered. -/
theorem claim_C1_failing_run (w : World) :
    main_model w { argsBase with update := false, taskName := some "web-task" } =
      (some (MainOutcome.exited 1), []) :=
  rfl

/-- Concrete instance of claim C1's failing run, on the sample world whose
service lookup and task-definition fetch would both succeed: the run still
exits 1 without a single remote call. -/
theorem claim_C1_witness :
    main_model sampleWorld { argsBase with update := false, taskName := some "web-task" } =
      (some (MainOutcome.exited 1), []) :=
  claim_C1_failing_run sampleWorld

/-- Claim C9: the region used follows the precedence explicit argument,
then the `AWS_DEFAULT_REGION` environment variable, then the `region` entry
of the config-file section named after the profile (section `default` when
no profile is given); a missing config file is not an error and simply
leaves resolution at `None`; and whenever resolution does not produce a
truthy region (including an uncaught config-parser error, which ends the
process with status 1), the process terminates with exit status 1 having
made no remote call. -/
theorem claim_C9_region_precedence (w : World) (args : Args) :
    (pyTruthy args.region = true → resolved_region w args = Except.ok args.region) ∧
    (pyTruthy args.region = false → ∀ e, w.envRegion = some e →
      resolved_region w args = Except.ok (some e)) ∧
    (pyTruthy args.region = false → w.envRegion = none → w.awsConfig = none →
      resolved_region w args = Except.ok none) ∧
    (pyTruthy args.region = false → w.envRegion = none → ∀ cfg, w.awsConfig = some cfg →
      ∀ r, (if pyTruthy args.profile then cfg ("profile " ++ args.profile.getD "")
            else cfg "default") = some r →
        resolved_region w args = Except.ok (some r)) ∧
    (∀ ro, resolved_region w args = Except.ok ro → pyTruthy ro = false →
      (main_model w args).2 = [] ∧
        ∃ o, (main_model w args).1 = some o ∧ processExitCode o = 1) ∧
    (resolved_region w args = Except.error () →
      (main_model w args).2 = [] ∧
        ∃ o, (main_model w args).1 = some o ∧ processExitCode o = 1) := by
  refine ⟨?_, ?_, ?_, ?_, ?_, ?_⟩
  · intro h
    unfold resolved_region
    rw [if_pos h]
  · intro h e he
    unfold resolved_region get_aws_region
    rw [if_neg (by simp [h]), he]
  · intro h he hc
    unfold resolved_region get_aws_region
    rw [if_neg (by simp [h]), he, hc]
  · intro h he cfg hc r hl
    unfold resolved_region get_aws_region
    rw [if_neg (by simp [h]), he, hc]
    dsimp only
    rw [hl]
  · intro ro hro hfalse
    unfold main_model prepare
    by_cases h1 : (args.code_deploy &&
        (!(pyTruthy args.app_name) || !(pyTruthy args.group_name))) = true
    · rw [if_pos h1]
      exact ⟨rfl, MainOutcome.exited 1, rfl, rfl⟩
    · rw [if_neg h1, hro]
      dsimp only
      rw [if_pos (by simp [hfalse])]
      exact ⟨rfl, MainOutcome.exited 1, rfl, rfl⟩
  · intro herr
    unfold main_model prepare
    by_cases h1 : (args.code_deploy &&
        (!(pyTruthy args.app_name) || !(pyTruthy args.group_name))) = true
    · rw [if_pos h1]
      exact ⟨rfl, MainOutcome.exited 1, rfl, rfl⟩
    · rw [if_neg h1, herr]
      exact ⟨rfl, MainOutcome.raisedError, rfl, rfl⟩

/-- Concrete instance of claim C9: with no `-r`, no environment region and
no config file, resolution yields `None` and the run exits 1 with no remote
calls. -/
theorem claim_C9_witness :
    resolved_region sampleWorld { argsBase with region := none } = Except.ok none ∧
    ((main_model sampleWorld { argsBase with region := none }).2 = [] ∧
      ∃ o, (main_model sampleWorld { argsBase with region := none }).1 = some o ∧
        processExitCode o = 1) := by
  have h := claim_C9_region_precedence sampleWorld { argsBase with region := none }
  have ha := h.2.2.1 rfl rfl rfl
  exact ⟨ha, h.2.2.2.2.1 none ha rfl⟩

end EcsDeployer
